import Mathlib

set_option autoImplicit false

/-!
Verification of the GPS WebSocket server (connection/subscription registry and
broadcast router).

The development shallowly embeds the two observed variants of the server's
message handler and lifecycle handlers:

* `handleClientMessage` — the handler of `src/index.ts` (has a `subscribe`
  case, no userId-uniqueness check);
* `handleClientMessageP0` — the handler of the second source file (has the
  userId-uniqueness check in `register`, no `subscribe` case), together with
  its periodic sweep `cleanupDeadConnections`;
* `onOpen` / `onClose` — the connection lifecycle handlers (identical in both
  variants).

JavaScript `Map`s are embedded as association lists with unique keys
(`alget`/`alset`/`aldel`); since a JS `Map` can never hold two entries with
the same key, replace-all/delete-all semantics on the association list agree
exactly with the JS semantics on every representable state.  JS `Set`s of
sockets are embedded as duplicate-free lists (`sadd`/`sdel`).  WebSocket
handles are opaque `Nat`s; the transport readiness of each socket is passed in
as a function `rs : Nat → Nat` mirroring `ws.readyState`.  Outbound traffic is
returned explicitly as a list of (recipient, message) pairs.
-/

namespace GpsWs

/-- JS truthiness of an optional string field: `undefined` and `""` are falsy. -/
def strTruthy : Option String → Bool
  | none => false
  | some s => s != ""

section AssocOps

variable {κ : Type} {α : Type} [DecidableEq κ]

/-- `Map.get`: the value at the first (in a JS `Map`: the only) entry for `k`. -/
def alget : List (κ × α) → κ → Option α
  | [], _ => none
  | p :: l, k => if p.1 = k then some p.2 else alget l k

/-- `Map.has`. -/
def alhas (l : List (κ × α)) (k : κ) : Bool := (alget l k).isSome

/-- Replace the value at every entry for `k` (in a JS `Map`: the only one). -/
def alreplace : List (κ × α) → κ → α → List (κ × α)
  | [], _, _ => []
  | p :: l, k, v => if p.1 = k then (k, v) :: alreplace l k v else p :: alreplace l k v

/-- `Map.set`: replace in place when the key exists, otherwise append. -/
def alset (l : List (κ × α)) (k : κ) (v : α) : List (κ × α) :=
  if alhas l k then alreplace l k v else l ++ [(k, v)]

/-- `Map.delete`: drop every entry for `k` (in a JS `Map`: the only one). -/
def aldel : List (κ × α) → κ → List (κ × α)
  | [], _ => []
  | p :: l, k => if p.1 = k then aldel l k else p :: aldel l k

/-- `Array.from(map.keys())`. -/
def alkeys (l : List (κ × α)) : List κ := l.map Prod.fst

/-- `Array.from(map.values())`. -/
def alvalues (l : List (κ × α)) : List α := l.map Prod.snd

end AssocOps

/-- `Set.delete`: remove a socket from a subscriber set. -/
def sdel : List Nat → Nat → List Nat
  | [], _ => []
  | x :: l, w => if x = w then sdel l w else x :: sdel l w

/-- `Set.add`: a no-op when the socket is already in the set. -/
def sadd (l : List Nat) (w : Nat) : List Nat := if w ∈ l then l else l ++ [w]

/-- `WebSocket.OPEN`. -/
def WS_OPEN : Nat := 1
/-- `WebSocket.CLOSING`. -/
def WS_CLOSING : Nat := 2
/-- `WebSocket.CLOSED`. -/
def WS_CLOSED : Nat := 3

/-- The `clientType` enumeration of the wire protocol. -/
inductive ClientType where
  | bus_driver
  | admin
  | passenger
deriving DecidableEq, Repr

/-- `LocationData` payload.  Coordinates are opaque to the router (no
arithmetic is ever performed on them), so they are embedded as integers. -/
structure LocationData where
  latitude : Int
  longitude : Int
  accuracy : Option Int
  timestamp : Int
deriving DecidableEq, Repr

/-- `BroadcastLocationData`: a location payload stamped with the sender's
registered `busId` and `userId`. -/
structure BroadcastLocationData extends LocationData where
  busId : String
  userId : String
deriving DecidableEq, Repr

/-- An inbound `ClientMessage`.  Fields that JS may leave `undefined` are
`Option`s; `type` stays a string so that the `default` switch branch
("Unknown message type") is representable. -/
structure ClientMessage where
  type : String
  data : Option LocationData
  busId : Option String
  userId : Option String
  clientType : Option ClientType
  subscribeToBusId : Option String
deriving DecidableEq, Repr

/-- Per-connection `ClientInfo` record. -/
structure ClientInfo where
  id : String
  type : ClientType
  busId : Option String
  userId : String
  lastLocation : Option BroadcastLocationData
  connected : Bool
  subscribedToBusId : Option String
deriving DecidableEq, Repr

/-- An outbound `ServerMessage`. -/
inductive ServerMessage where
  | connectionAck (message : String) (clientCount : Nat)
  | errorMsg (message : String)
  | locationBroadcast (data : BroadcastLocationData)
  | clientList (clients : List ClientInfo) (activeBuses : List String) (clientCount : Nat)
deriving DecidableEq, Repr

/-- One queued transport send: recipient socket and message. -/
abbrev Out := Nat × ServerMessage

/-- The three global stores: `clients`, `busLocations`, `busSubscriptions`. -/
structure ServerState where
  clients : List (Nat × ClientInfo)
  busLocations : List (String × BroadcastLocationData)
  busSubscriptions : List (String × List Nat)
deriving DecidableEq, Repr

/-- The `client_list` message body assembled from the current stores. -/
def clientListMessage (s : ServerState) : ServerMessage :=
  ServerMessage.clientList (alvalues s.clients) (alkeys s.busLocations) s.clients.length

/-- `broadcastClientList()`: send the client list to every connection whose
transport is open. -/
def broadcastClientList (s : ServerState) (rs : Nat → Nat) : List Out :=
  (alkeys s.clients).filterMap fun w =>
    if rs w = WS_OPEN then some (w, clientListMessage s) else none

/-- `handleLocationUpdate`: upsert the bus's cache entry and fan the broadcast
out to the bus's subscribers whose transports are open. -/
def handleLocationUpdate (loc : BroadcastLocationData) (s : ServerState)
    (rs : Nat → Nat) : ServerState × List Out :=
  let s1 : ServerState := { s with busLocations := alset s.busLocations loc.busId loc }
  match alget s1.busSubscriptions loc.busId with
  | some subs =>
      if subs.length > 0 then
        (s1, subs.filterMap fun w =>
          if rs w = WS_OPEN then some (w, ServerMessage.locationBroadcast loc) else none)
      else (s1, [])
  | none => (s1, [])

/-- The `case "location_update"` body (identical in both variants); also the
target of the `register` case's fall-through. -/
def locationCase (ws : Nat) (msg : ClientMessage) (ci : ClientInfo)
    (s : ServerState) (rs : Nat → Nat) : ServerState × List Out :=
  if !strTruthy msg.userId then
    (s, [(ws, ServerMessage.errorMsg "register first with userId")])
  else if msg.data.isSome && (ci.type = ClientType.bus_driver || ci.type = ClientType.admin)
      && strTruthy ci.busId then
    let d := msg.data.getD ⟨0, 0, none, 0⟩
    let bl : BroadcastLocationData :=
      { toLocationData := d, busId := ci.busId.getD "", userId := ci.userId }
    let ci' : ClientInfo := { ci with lastLocation := some bl }
    let s1 : ServerState := { s with clients := alset s.clients ws ci' }
    handleLocationUpdate bl s1 rs
  else if !strTruthy ci.busId then
    (s, [(ws, ServerMessage.errorMsg "Must register with a busId to send location updates")])
  else
    (s, [(ws, ServerMessage.errorMsg "Only bus drivers and admins can broadcast location updates")])

/-- The shared tail of the `register` case: the `clientType` validation block;
when `clientType` is absent the JS `switch` falls through (missing `break`)
into the `location_update` case. -/
def registerCore (ws : Nat) (msg : ClientMessage) (ci : ClientInfo)
    (s : ServerState) (rs : Nat → Nat) : ServerState × List Out :=
  match msg.clientType with
  | some ct =>
      if ct = ClientType.bus_driver && !strTruthy msg.busId then
        (s, [(ws, ServerMessage.errorMsg "bus_driver must register with busId")])
      else if ct ≠ ClientType.bus_driver && strTruthy msg.busId then
        (s, [(ws, ServerMessage.errorMsg "clientTypes that are not bus drivers must not have busId")])
      else
        let ci' : ClientInfo :=
          { ci with
            type := ct
            busId := if strTruthy msg.busId then msg.busId else ci.busId
            userId := msg.userId.getD "" }
        let s1 : ServerState := { s with clients := alset s.clients ws ci' }
        (s1, broadcastClientList s1 rs)
  | none => locationCase ws msg ci s rs

/-- The `case "register"` body of `src/index.ts` (no uniqueness check). -/
def registerCase (ws : Nat) (msg : ClientMessage) (ci : ClientInfo)
    (s : ServerState) (rs : Nat → Nat) : ServerState × List Out :=
  if !strTruthy msg.userId then
    (s, [(ws, ServerMessage.errorMsg "register first with userId")])
  else registerCore ws msg ci s rs

/-- The `case "register"` body of the second variant: after the userId
presence check it scans all other live connections and rejects the
registration when another connection already holds the same userId. -/
def registerCaseP0 (ws : Nat) (msg : ClientMessage) (ci : ClientInfo)
    (s : ServerState) (rs : Nat → Nat) : ServerState × List Out :=
  if !strTruthy msg.userId then
    (s, [(ws, ServerMessage.errorMsg "register first with userId")])
  else if s.clients.any fun p => p.1 ≠ ws && p.2.userId = msg.userId.getD "" then
    (s, [(ws, ServerMessage.errorMsg
      "A connection for this userId already exists. Only the first connection is kept.")])
  else registerCore ws msg ci s rs

/-- The subscription-removal block that the source repeats verbatim in the
`subscribe` case, the `unsubscribe` case, the close handler and the sweep:
look up bus `a`'s subscriber set, delete `ws` from it, and delete the key
when the set became empty. -/
def subRemoveOld (ws : Nat) (a : String) (s : ServerState) : ServerState :=
  match alget s.busSubscriptions a with
  | some subs =>
      let l := sdel subs ws
      { s with busSubscriptions :=
          if l.length = 0 then aldel s.busSubscriptions a
          else alset s.busSubscriptions a l }
  | none => s

/-- The `case "subscribe"` body (present only in `src/index.ts`). -/
def subscribeCase (ws : Nat) (msg : ClientMessage) (ci : ClientInfo)
    (s : ServerState) (_rs : Nat → Nat) : ServerState × List Out :=
  if !strTruthy msg.userId then
    (s, [(ws, ServerMessage.errorMsg "register first with userId")])
  else if !strTruthy msg.subscribeToBusId then
    (s, [(ws, ServerMessage.errorMsg "Must specify busId to subscribe to")])
  else
    let b := msg.subscribeToBusId.getD ""
    let s1 : ServerState :=
      if strTruthy ci.subscribedToBusId then
        subRemoveOld ws (ci.subscribedToBusId.getD "") s
      else s
    let ci' : ClientInfo := { ci with subscribedToBusId := some b }
    let s2 : ServerState := { s1 with clients := alset s1.clients ws ci' }
    let s3 : ServerState :=
      if alhas s2.busSubscriptions b then s2
      else { s2 with busSubscriptions := s2.busSubscriptions ++ [(b, [])] }
    let newSubs := sadd ((alget s3.busSubscriptions b).getD []) ws
    let s4 : ServerState := { s3 with busSubscriptions := alset s3.busSubscriptions b newSubs }
    match alget s4.busLocations b with
    | some loc => (s4, [(ws, ServerMessage.locationBroadcast loc)])
    | none => (s4, [])

/-- The `case "unsubscribe"` body (identical in both variants). -/
def unsubscribeCase (ws : Nat) (msg : ClientMessage) (ci : ClientInfo)
    (s : ServerState) (_rs : Nat → Nat) : ServerState × List Out :=
  if !strTruthy msg.userId then
    (s, [(ws, ServerMessage.errorMsg "register first with userId")])
  else if strTruthy ci.subscribedToBusId then
    let s1 : ServerState := subRemoveOld ws (ci.subscribedToBusId.getD "") s
    let ci' : ClientInfo := { ci with subscribedToBusId := none }
    ({ s1 with clients := alset s1.clients ws ci' }, [])
  else (s, [])

/-- `handleClientMessage` of `src/index.ts`. -/
def handleClientMessage (ws : Nat) (msg : ClientMessage) (s : ServerState)
    (rs : Nat → Nat) : ServerState × List Out :=
  match alget s.clients ws with
  | none => (s, [])
  | some ci =>
      if msg.type = "register" then registerCase ws msg ci s rs
      else if msg.type = "location_update" then locationCase ws msg ci s rs
      else if msg.type = "subscribe" then subscribeCase ws msg ci s rs
      else if msg.type = "unsubscribe" then unsubscribeCase ws msg ci s rs
      else (s, [(ws, ServerMessage.errorMsg "Unknown message type")])

/-- `handleClientMessage` of the second variant: `register` carries the
uniqueness check, and there is no `subscribe` case, so a `subscribe` message
hits the `default` branch. -/
def handleClientMessageP0 (ws : Nat) (msg : ClientMessage) (s : ServerState)
    (rs : Nat → Nat) : ServerState × List Out :=
  match alget s.clients ws with
  | none => (s, [])
  | some ci =>
      if msg.type = "register" then registerCaseP0 ws msg ci s rs
      else if msg.type = "location_update" then locationCase ws msg ci s rs
      else if msg.type = "unsubscribe" then unsubscribeCase ws msg ci s rs
      else (s, [(ws, ServerMessage.errorMsg "Unknown message type")])

/-- The fresh `ClientInfo` built on `wss.on("connection")`. -/
def freshClientInfo (cid : String) : ClientInfo :=
  { id := cid, type := ClientType.passenger, busId := none, userId := "",
    lastLocation := none, connected := true, subscribedToBusId := none }

/-- The connection-open handler: insert a default passenger record, ack the
new connection and send it (alone) the current client list. -/
def onOpen (ws : Nat) (cid : String) (s : ServerState) : ServerState × List Out :=
  let s1 : ServerState := { s with clients := alset s.clients ws (freshClientInfo cid) }
  (s1, [(ws, ServerMessage.connectionAck "Connected to GPS tracking server" s1.clients.length),
        (ws, clientListMessage s1)])

/-- The eviction step of the close handler, taken when the disconnecting
driver's bus has no remaining driver: delete the bus's cache entry and — if
the bus has subscribers — send each open subscriber a "went offline" error
followed by the updated client list. -/
def notifySubsAndEvict (b : String) (s2 : ServerState) (rs : Nat → Nat) :
    ServerState × List Out :=
  let s3 : ServerState := { s2 with busLocations := aldel s2.busLocations b }
  match alget s3.busSubscriptions b with
  | some subs =>
      if subs.length > 0 then
        let offline := subs.filterMap fun w =>
          if rs w = WS_OPEN then
            some (w, ServerMessage.errorMsg ("Bus " ++ b ++ " went offline"))
          else none
        let clMsg := clientListMessage s3
        let cls := subs.filterMap fun w =>
          if rs w = WS_OPEN then some (w, clMsg) else none
        (s3, offline ++ cls)
      else (s3, [])
  | none => (s3, [])

/-- The `ws.on("close")` handler (lines 81–164, identical in both variants):
remove the connection's subscription (pruning an emptied key), remove it from
the registry, and — when it was a driver — delete the bus's cache entry if no
other driver for that bus remains, notifying that bus's subscribers; finally
broadcast the updated client list to everyone. -/
def onClose (ws : Nat) (s : ServerState) (rs : Nat → Nat) : ServerState × List Out :=
  match alget s.clients ws with
  | none => (s, [])
  | some ci =>
      let s1 : ServerState :=
        if strTruthy ci.subscribedToBusId then
          subRemoveOld ws (ci.subscribedToBusId.getD "") s
        else s
      let s2 : ServerState := { s1 with clients := aldel s1.clients ws }
      let next : ServerState × List Out :=
        if ci.type = ClientType.bus_driver && strTruthy ci.busId then
          let b := ci.busId.getD ""
          let otherDrivers := (alvalues s2.clients).filter fun c =>
            c.type = ClientType.bus_driver && c.busId = some b
          if otherDrivers.length = 0 then notifySubsAndEvict b s2 rs
          else (s2, [])
        else (s2, [])
      (next.1, next.2 ++ broadcastClientList next.1 rs)

/-- One step of `cleanupDeadConnections`: the per-socket cleanup — remove the
socket's subscription (pruning an emptied key) and delete it from the
registry.  Unlike `onClose`, there is no driver/bus-cache eviction step. -/
def cleanupStep (s : ServerState) (ws : Nat) : ServerState :=
  match alget s.clients ws with
  | none => s
  | some ci =>
      let s1 : ServerState :=
        if strTruthy ci.subscribedToBusId then
          subRemoveOld ws (ci.subscribedToBusId.getD "") s
        else s
      { s1 with clients := aldel s1.clients ws }

/-- `cleanupDeadConnections` (second variant only): collect every socket whose
transport is closed or closing, run the per-socket cleanup on each, and — only
when at least one was collected — broadcast one client-list update. -/
def cleanupDeadConnections (s : ServerState) (rs : Nat → Nat) : ServerState × List Out :=
  let dead := (alkeys s.clients).filter fun w => rs w = WS_CLOSED || rs w = WS_CLOSING
  if dead.length > 0 then
    let s' := dead.foldl cleanupStep s
    (s', broadcastClientList s' rs)
  else (s, [])

/-- The spec's per-connection invariant `role = driver ⇒ busId is set` and
`role ≠ driver ⇒ busId is unset`, read over every registry entry. -/
def roleBusIdInvariant (s : ServerState) : Prop :=
  ∀ p ∈ s.clients,
    (p.2.type = ClientType.bus_driver → strTruthy p.2.busId = true) ∧
    (p.2.type ≠ ClientType.bus_driver → strTruthy p.2.busId = false)

/-- The half of the role/busId invariant that the code maintains. -/
def driverHasBusId (s : ServerState) : Prop :=
  ∀ p ∈ s.clients, p.2.type = ClientType.bus_driver → strTruthy p.2.busId = true

/-- Global uniqueness of non-empty userIds across live connections. -/
def uniqueUserIds (s : ServerState) : Prop :=
  ∀ p ∈ s.clients, ∀ q ∈ s.clients, p.1 ≠ q.1 → p.2.userId ≠ "" → p.2.userId ≠ q.2.userId

/-- Recognizer for `client_list` messages. -/
def isClientListMsg : ServerMessage → Prop
  | ServerMessage.clientList _ _ _ => True
  | _ => False

instance : DecidablePred isClientListMsg := fun m => by
  cases m <;> simp [isClientListMsg] <;> infer_instance

instance (s : ServerState) : Decidable (roleBusIdInvariant s) := by
  unfold roleBusIdInvariant; infer_instance

instance (s : ServerState) : Decidable (driverHasBusId s) := by
  unfold driverHasBusId; infer_instance

instance (s : ServerState) : Decidable (uniqueUserIds s) := by
  unfold uniqueUserIds; infer_instance

/-! ### Lemmas about the map and set embeddings -/

section AssocLemmas

variable {κ : Type} {α : Type} [DecidableEq κ]

theorem alget_cons (p : κ × α) (t : List (κ × α)) (k : κ) :
    alget (p :: t) k = if p.1 = k then some p.2 else alget t k := rfl

theorem alget_mem {l : List (κ × α)} {k : κ} {v : α} (h : alget l k = some v) :
    (k, v) ∈ l := by
  induction l with
  | nil => simp [alget] at h
  | cons p t ih =>
      rw [alget_cons] at h
      split at h
      · rename_i hp
        injection h with h
        exact List.mem_cons.mpr (Or.inl (Prod.ext_iff.mpr ⟨hp.symm, h.symm⟩))
      · exact List.mem_cons_of_mem _ (ih h)

theorem alget_none_forall {l : List (κ × α)} {k : κ} (h : alget l k = none) :
    ∀ p ∈ l, p.1 ≠ k := by
  induction l with
  | nil => intro p hp; simp at hp
  | cons q t ih =>
      rw [alget] at h
      split at h
      · exact absurd h (by simp)
      · rename_i hq
        intro p hp
        rcases List.mem_cons.mp hp with hh | ht
        · exact hh ▸ hq
        · exact ih h p ht

theorem alget_eq_none_of_forall {l : List (κ × α)} {k : κ} (h : ∀ p ∈ l, p.1 ≠ k) :
    alget l k = none := by
  induction l with
  | nil => rfl
  | cons q t ih =>
      rw [alget]
      rw [if_neg (h q (List.mem_cons_self q t))]
      exact ih fun p hp => h p (List.mem_cons_of_mem _ hp)

theorem alget_append_of_some {l₁ : List (κ × α)} (l₂ : List (κ × α)) {k : κ} {v : α}
    (h : alget l₁ k = some v) : alget (l₁ ++ l₂) k = some v := by
  induction l₁ with
  | nil => simp [alget] at h
  | cons p t ih =>
      rw [alget_cons] at h
      rw [List.cons_append, alget_cons]
      split at h
      · rename_i hp; rw [if_pos hp]; exact h
      · rename_i hp; rw [if_neg hp]; exact ih h

theorem alget_append_of_none {l₁ : List (κ × α)} (l₂ : List (κ × α)) {k : κ}
    (h : alget l₁ k = none) : alget (l₁ ++ l₂) k = alget l₂ k := by
  induction l₁ with
  | nil => rfl
  | cons p t ih =>
      rw [alget_cons] at h
      split at h
      · exact absurd h (by simp)
      · rename_i hp
        rw [List.cons_append, alget_cons, if_neg hp]
        exact ih h

theorem alget_alreplace_self {l : List (κ × α)} {k : κ} {v : α}
    (h : alhas l k = true) : alget (alreplace l k v) k = some v := by
  induction l with
  | nil => simp [alhas, alget] at h
  | cons p t ih =>
      by_cases hp : p.1 = k
      · simp [alreplace, hp, alget]
      · rw [alhas, alget, if_neg hp] at h
        simp only [alreplace, if_neg hp]
        rw [alget, if_neg hp]
        exact ih h

theorem alreplace_cons (p : κ × α) (t : List (κ × α)) (k : κ) (v : α) :
    alreplace (p :: t) k v =
      if p.1 = k then (k, v) :: alreplace t k v else p :: alreplace t k v := rfl

theorem alget_alreplace_ne (l : List (κ × α)) (k k' : κ) (v : α) (h : k' ≠ k) :
    alget (alreplace l k v) k' = alget l k' := by
  induction l with
  | nil => rfl
  | cons p t ih =>
      by_cases hp : p.1 = k
      · have hk : ¬ (k = k') := fun hh => h hh.symm
        have hpk : ¬ (p.1 = k') := by rw [hp]; exact hk
        rw [alreplace_cons, if_pos hp, alget_cons, alget_cons]
        simp only [if_neg hk, if_neg hpk]
        exact ih
      · rw [alreplace_cons, if_neg hp, alget_cons, alget_cons]
        by_cases hpk : p.1 = k'
        · rw [if_pos hpk, if_pos hpk]
        · rw [if_neg hpk, if_neg hpk]; exact ih

theorem alhas_false_alget_none {l : List (κ × α)} {k : κ} (h : alhas l k = false) :
    alget l k = none := by
  unfold alhas at h
  cases hg : alget l k with
  | none => rfl
  | some v => rw [hg] at h; simp at h

theorem alget_alset (l : List (κ × α)) (k k' : κ) (v : α) :
    alget (alset l k v) k' = if k' = k then some v else alget l k' := by
  unfold alset
  by_cases hh : alhas l k = true
  · rw [if_pos hh]
    by_cases hk : k' = k
    · rw [if_pos hk, hk, alget_alreplace_self hh]
    · rw [if_neg hk, alget_alreplace_ne _ _ _ _ hk]
  · rw [if_neg hh]
    have hn : alget l k = none := alhas_false_alget_none (Bool.eq_false_iff.mpr hh)
    by_cases hk : k' = k
    · subst hk
      rw [if_pos rfl, alget_append_of_none _ hn, alget_cons, if_pos rfl]
    · rw [if_neg hk]
      cases hg : alget l k' with
      | some w => rw [alget_append_of_some _ hg]
      | none =>
          rw [alget_append_of_none _ hg, alget_cons,
            if_neg (fun hpk : (k, v).1 = k' => hk hpk.symm)]
          rfl

theorem alget_alset_self (l : List (κ × α)) (k : κ) (v : α) :
    alget (alset l k v) k = some v := by
  rw [alget_alset, if_pos rfl]

theorem alget_alset_ne (l : List (κ × α)) {k k' : κ} (v : α) (h : k' ≠ k) :
    alget (alset l k v) k' = alget l k' := by
  rw [alget_alset, if_neg h]

theorem aldel_cons (p : κ × α) (t : List (κ × α)) (k : κ) :
    aldel (p :: t) k = if p.1 = k then aldel t k else p :: aldel t k := rfl

theorem alget_aldel (l : List (κ × α)) (k k' : κ) :
    alget (aldel l k) k' = if k' = k then none else alget l k' := by
  induction l with
  | nil => simp [aldel, alget]
  | cons p t ih =>
      rw [aldel_cons]
      by_cases hp : p.1 = k
      · rw [if_pos hp, ih]
        by_cases hk : k' = k
        · rw [if_pos hk, if_pos hk]
        · have hpk : ¬ (p.1 = k') := by rw [hp]; exact fun hh => hk hh.symm
          rw [if_neg hk, if_neg hk, alget_cons, if_neg hpk]
      · rw [if_neg hp, alget_cons]
        by_cases hpk : p.1 = k'
        · have hk : ¬ (k' = k) := fun hh => hp (by rw [hpk, hh])
          rw [if_pos hpk, if_neg hk, alget_cons, if_pos hpk]
        · rw [if_neg hpk, ih, alget_cons]
          by_cases hk : k' = k
          · rw [if_pos hk, if_pos hk]
          · rw [if_neg hk, if_neg hk, if_neg hpk]

theorem alget_aldel_self (l : List (κ × α)) (k : κ) : alget (aldel l k) k = none := by
  rw [alget_aldel, if_pos rfl]

theorem alget_aldel_ne (l : List (κ × α)) {k k' : κ} (h : k' ≠ k) :
    alget (aldel l k) k' = alget l k' := by
  rw [alget_aldel, if_neg h]

theorem mem_aldel {l : List (κ × α)} {k : κ} {p : κ × α} (h : p ∈ aldel l k) :
    p ∈ l ∧ p.1 ≠ k := by
  induction l with
  | nil => simp [aldel] at h
  | cons q t ih =>
      rw [aldel] at h
      split at h
      · exact ⟨List.mem_cons_of_mem _ (ih h).1, (ih h).2⟩
      · rename_i hq
        rcases List.mem_cons.mp h with hh | ht
        · exact ⟨hh ▸ List.mem_cons_self q t, hh ▸ hq⟩
        · exact ⟨List.mem_cons_of_mem _ (ih ht).1, (ih ht).2⟩

theorem mem_aldel_of_ne {l : List (κ × α)} {k : κ} {p : κ × α}
    (hm : p ∈ l) (hne : p.1 ≠ k) : p ∈ aldel l k := by
  induction l with
  | nil => simp at hm
  | cons q t ih =>
      rw [aldel]
      rcases List.mem_cons.mp hm with hh | ht
      · rw [if_neg (hh ▸ hne)]
        exact hh ▸ List.mem_cons_self _ _
      · split
        · exact ih ht
        · exact List.mem_cons_of_mem _ (ih ht)

theorem aldel_of_alget_none {l : List (κ × α)} {k : κ} (h : alget l k = none) :
    aldel l k = l := by
  induction l with
  | nil => rfl
  | cons p t ih =>
      rw [alget] at h
      split at h
      · exact absurd h (by simp)
      · rename_i hp
        rw [aldel, if_neg hp, ih h]

theorem mem_alreplace {l : List (κ × α)} {k : κ} {v : α} {p : κ × α}
    (h : p ∈ alreplace l k v) : p = (k, v) ∨ (p ∈ l ∧ p.1 ≠ k) := by
  induction l with
  | nil => simp [alreplace] at h
  | cons q t ih =>
      rw [alreplace] at h
      split at h
      · rcases List.mem_cons.mp h with hh | ht
        · exact Or.inl hh
        · rcases ih ht with hl | ⟨hm, hn⟩
          · exact Or.inl hl
          · exact Or.inr ⟨List.mem_cons_of_mem _ hm, hn⟩
      · rename_i hq
        rcases List.mem_cons.mp h with hh | ht
        · exact Or.inr ⟨hh ▸ List.mem_cons_self _ _, hh ▸ hq⟩
        · rcases ih ht with hl | ⟨hm, hn⟩
          · exact Or.inl hl
          · exact Or.inr ⟨List.mem_cons_of_mem _ hm, hn⟩

theorem mem_alset {l : List (κ × α)} {k : κ} {v : α} {p : κ × α}
    (h : p ∈ alset l k v) : p = (k, v) ∨ (p ∈ l ∧ p.1 ≠ k) := by
  unfold alset at h
  split at h
  · exact mem_alreplace h
  · rename_i hh
    have hn := alhas_false_alget_none (Bool.eq_false_iff.mpr hh)
    rcases List.mem_append.mp h with hl | hr
    · exact Or.inr ⟨hl, alget_none_forall hn p hl⟩
    · simp at hr
      exact Or.inl (by rw [hr])

theorem mem_sdel {l : List Nat} {x w : Nat} (h : x ∈ sdel l w) : x ∈ l ∧ x ≠ w := by
  induction l with
  | nil => simp [sdel] at h
  | cons y t ih =>
      rw [sdel] at h
      split at h
      · exact ⟨List.mem_cons_of_mem _ (ih h).1, (ih h).2⟩
      · rename_i hy
        rcases List.mem_cons.mp h with hh | ht
        · exact ⟨hh ▸ List.mem_cons_self _ _, hh ▸ hy⟩
        · exact ⟨List.mem_cons_of_mem _ (ih ht).1, (ih ht).2⟩

theorem not_mem_sdel_self (l : List Nat) (w : Nat) : w ∉ sdel l w :=
  fun h => (mem_sdel h).2 rfl

theorem mem_sadd_self (l : List Nat) (w : Nat) : w ∈ sadd l w := by
  unfold sadd
  split
  · assumption
  · exact List.mem_append.mpr (Or.inr (List.mem_singleton.mpr rfl))

end AssocLemmas

theorem strTruthy_some {x : String} (h : x ≠ "") : strTruthy (some x) = true := by
  simp [strTruthy, h]

theorem alget_append_single_ne {κ α : Type} [DecidableEq κ] (l : List (κ × α))
    {k k' : κ} (v : α) (h : k' ≠ k) : alget (l ++ [(k, v)]) k' = alget l k' := by
  cases hg : alget l k' with
  | some w => rw [alget_append_of_some _ hg]
  | none =>
      rw [alget_append_of_none _ hg, alget_cons,
        if_neg (fun hh : (k, v).1 = k' => h hh.symm)]
      rfl

/-! ### Lemmas about the shared subscription-removal block -/

theorem subRemoveOld_busLocations (ws : Nat) (a : String) (s : ServerState) :
    (subRemoveOld ws a s).busLocations = s.busLocations := by
  unfold subRemoveOld
  repeat' split
  all_goals rfl

theorem subRemoveOld_clients (ws : Nat) (a : String) (s : ServerState) :
    (subRemoveOld ws a s).clients = s.clients := by
  unfold subRemoveOld
  repeat' split
  all_goals rfl

theorem subRemoveOld_self_not_mem (ws : Nat) (a : String) (s : ServerState) :
    ∀ l, alget (subRemoveOld ws a s).busSubscriptions a = some l → ws ∉ l := by
  intro l hl
  unfold subRemoveOld at hl
  cases hg : alget s.busSubscriptions a with
  | none =>
      simp only [hg] at hl
      exact absurd hl (by simp)
  | some subs =>
      simp only [hg] at hl
      split at hl
      · rw [alget_aldel_self] at hl
        exact absurd hl (by simp)
      · rw [alget_alset_self] at hl
        injection hl with hl
        rw [← hl]
        exact not_mem_sdel_self subs ws

theorem subRemoveOld_prune (ws : Nat) (a : String) (s : ServerState) (l0 : List Nat)
    (hg : alget s.busSubscriptions a = some l0) (hdel : sdel l0 ws = []) :
    alget (subRemoveOld ws a s).busSubscriptions a = none := by
  unfold subRemoveOld
  simp only [hg]
  rw [if_pos (by rw [hdel]; rfl)]
  exact alget_aldel_self _ _

theorem subRemoveOld_get_ne (ws : Nat) (a b : String) (s : ServerState) (hne : b ≠ a) :
    alget (subRemoveOld ws a s).busSubscriptions b = alget s.busSubscriptions b := by
  unfold subRemoveOld
  cases hg : alget s.busSubscriptions a with
  | none => rfl
  | some subs =>
      show alget (if (sdel subs ws).length = 0 then aldel s.busSubscriptions a
        else alset s.busSubscriptions a (sdel subs ws)) b = alget s.busSubscriptions b
      split
      · exact alget_aldel_ne _ hne
      · exact alget_alset_ne _ _ hne

theorem subRemoveOld_mem_subset (ws x : Nat) (a b : String) (s : ServerState)
    (l' : List Nat) (h : alget (subRemoveOld ws a s).busSubscriptions b = some l')
    (hx : x ∈ l') : ∃ l0, alget s.busSubscriptions b = some l0 ∧ x ∈ l0 := by
  by_cases hab : b = a
  · subst hab
    unfold subRemoveOld at h
    cases hg : alget s.busSubscriptions b with
    | none =>
        simp only [hg] at h
        exact absurd h (by simp)
    | some subs =>
        simp only [hg] at h
        split at h
        · rw [alget_aldel_self] at h
          exact absurd h (by simp)
        · rw [alget_alset_self] at h
          injection h with h
          refine ⟨subs, rfl, ?_⟩
          rw [← h] at hx
          exact (mem_sdel hx).1
  · rw [subRemoveOld_get_ne _ _ _ _ hab] at h
    exact ⟨l', h, hx⟩

/-! ### Dispatch lemmas: reducing the handlers to the per-case bodies -/

theorem hcm_registerCase {s : ServerState} {ws : Nat} {msg : ClientMessage}
    {rs : Nat → Nat} {ci : ClientInfo}
    (hci : alget s.clients ws = some ci) (hty : msg.type = "register") :
    handleClientMessage ws msg s rs = registerCase ws msg ci s rs := by
  simp [handleClientMessage, hci, hty]

theorem hcm_locationCase {s : ServerState} {ws : Nat} {msg : ClientMessage}
    {rs : Nat → Nat} {ci : ClientInfo}
    (hci : alget s.clients ws = some ci) (hty : msg.type = "location_update") :
    handleClientMessage ws msg s rs = locationCase ws msg ci s rs := by
  simp [handleClientMessage, hci, hty]

theorem hcm_subscribeCase {s : ServerState} {ws : Nat} {msg : ClientMessage}
    {rs : Nat → Nat} {ci : ClientInfo}
    (hci : alget s.clients ws = some ci) (hty : msg.type = "subscribe") :
    handleClientMessage ws msg s rs = subscribeCase ws msg ci s rs := by
  simp [handleClientMessage, hci, hty]

theorem hcm_unsubscribeCase {s : ServerState} {ws : Nat} {msg : ClientMessage}
    {rs : Nat → Nat} {ci : ClientInfo}
    (hci : alget s.clients ws = some ci) (hty : msg.type = "unsubscribe") :
    handleClientMessage ws msg s rs = unsubscribeCase ws msg ci s rs := by
  simp [handleClientMessage, hci, hty]

theorem hcmP0_registerCase {s : ServerState} {ws : Nat} {msg : ClientMessage}
    {rs : Nat → Nat} {ci : ClientInfo}
    (hci : alget s.clients ws = some ci) (hty : msg.type = "register") :
    handleClientMessageP0 ws msg s rs = registerCaseP0 ws msg ci s rs := by
  simp [handleClientMessageP0, hci, hty]

/-! ### Lemmas about the subscribe case -/

theorem subscribeCase_busLocations (ws : Nat) (msg : ClientMessage) (ci : ClientInfo)
    (s : ServerState) (rs : Nat → Nat) :
    (subscribeCase ws msg ci s rs).1.busLocations = s.busLocations := by
  unfold subscribeCase
  simp only [apply_ite ServerState.busLocations, apply_ite ServerState.clients,
    apply_ite ServerState.busSubscriptions, subRemoveOld_busLocations,
    subRemoveOld_clients, ite_self]
  repeat' split
  all_goals simp

theorem subscribeCase_adds_subscriber (ws : Nat) (msg : ClientMessage) (ci : ClientInfo)
    (s : ServerState) (rs : Nat → Nat) (b : String)
    (hu : strTruthy msg.userId = true)
    (hb : msg.subscribeToBusId = some b) (hbne : b ≠ "") :
    ∃ lB, alget (subscribeCase ws msg ci s rs).1.busSubscriptions b = some lB
      ∧ ws ∈ lB := by
  unfold subscribeCase
  rw [if_neg (by simp [hu]), if_neg (by rw [hb, strTruthy_some hbne]; simp)]
  simp only [hb, Option.getD_some]
  simp only [apply_ite ServerState.busLocations, apply_ite ServerState.clients,
    apply_ite ServerState.busSubscriptions, subRemoveOld_busLocations,
    subRemoveOld_clients, ite_self]
  repeat' split
  all_goals exact ⟨_, alget_alset_self _ _ _, mem_sadd_self _ _⟩

theorem subscribeCase_clients_eq (ws : Nat) (msg : ClientMessage) (ci : ClientInfo)
    (s : ServerState) (rs : Nat → Nat) (b : String)
    (hu : strTruthy msg.userId = true)
    (hb : msg.subscribeToBusId = some b) (hbne : b ≠ "") :
    (subscribeCase ws msg ci s rs).1.clients
      = alset s.clients ws { ci with subscribedToBusId := some b } := by
  unfold subscribeCase
  rw [if_neg (by simp [hu]), if_neg (by rw [hb, strTruthy_some hbne]; simp)]
  simp only [hb, Option.getD_some]
  simp only [apply_ite ServerState.busLocations, apply_ite ServerState.clients,
    apply_ite ServerState.busSubscriptions, subRemoveOld_busLocations,
    subRemoveOld_clients, ite_self]
  repeat' split
  all_goals simp [subRemoveOld_clients]

theorem subscribeCase_old_bus (ws : Nat) (msg : ClientMessage) (ci : ClientInfo)
    (s : ServerState) (rs : Nat → Nat) (a b : String)
    (hu : strTruthy msg.userId = true)
    (hb : msg.subscribeToBusId = some b) (hbne : b ≠ "")
    (hsub : ci.subscribedToBusId = some a) (hane : a ≠ "") (hab : a ≠ b) :
    alget (subscribeCase ws msg ci s rs).1.busSubscriptions a
      = alget (subRemoveOld ws a s).busSubscriptions a := by
  have hct : strTruthy ci.subscribedToBusId = true := by
    rw [hsub]; exact strTruthy_some hane
  unfold subscribeCase
  rw [if_neg (by simp [hu]), if_neg (by rw [hb, strTruthy_some hbne]; simp)]
  rw [if_pos hct]
  simp only [hb, hsub, Option.getD_some]
  simp only [apply_ite ServerState.busLocations, apply_ite ServerState.clients,
    apply_ite ServerState.busSubscriptions, subRemoveOld_busLocations,
    subRemoveOld_clients, ite_self]
  repeat' split
  all_goals simp [alget_alset_ne _ _ hab, alget_append_single_ne _ _ hab]

theorem subscribeCase_out_shape (ws : Nat) (msg : ClientMessage) (ci : ClientInfo)
    (s : ServerState) (rs : Nat → Nat) (b : String)
    (hu : strTruthy msg.userId = true)
    (hb : msg.subscribeToBusId = some b) (hbne : b ≠ "") :
    (subscribeCase ws msg ci s rs).2
      = match alget s.busLocations b with
        | some loc => [(ws, ServerMessage.locationBroadcast loc)]
        | none => [] := by
  unfold subscribeCase
  rw [if_neg (by simp [hu]), if_neg (by rw [hb, strTruthy_some hbne]; simp)]
  simp only [hb, Option.getD_some]
  simp only [apply_ite ServerState.busLocations, apply_ite ServerState.clients,
    apply_ite ServerState.busSubscriptions, subRemoveOld_busLocations,
    subRemoveOld_clients, ite_self]
  repeat' split
  all_goals simp_all

theorem locationCase_clients_shape (ws : Nat) (msg : ClientMessage) (ci : ClientInfo)
    (s : ServerState) (rs : Nat → Nat) :
    (locationCase ws msg ci s rs).1.clients = s.clients
    ∨ ∃ bl, (locationCase ws msg ci s rs).1.clients
        = alset s.clients ws { ci with lastLocation := some bl } := by
  simp only [locationCase, handleLocationUpdate]
  repeat' split
  all_goals first
    | exact Or.inl rfl
    | exact Or.inr ⟨_, rfl⟩

theorem locationCase_out_not_clientList (ws : Nat) (msg : ClientMessage) (ci : ClientInfo)
    (s : ServerState) (rs : Nat → Nat) :
    ∀ o ∈ (locationCase ws msg ci s rs).2, ¬ isClientListMsg o.2 := by
  simp only [locationCase, handleLocationUpdate]
  repeat' split
  all_goals intro o ho
  all_goals
    first
      | exact absurd ho (List.not_mem_nil o)
      | (rw [List.mem_singleton] at ho
         subst ho
         simp [isClientListMsg])
      | (obtain ⟨w, hw, hf⟩ := List.mem_filterMap.mp ho
         split at hf <;>
           first
             | (injection hf with hf
                rw [← hf]
                simp [isClientListMsg])
             | exact absurd hf (by simp))

theorem subscribeCase_clients_shape (ws : Nat) (msg : ClientMessage) (ci : ClientInfo)
    (s : ServerState) (rs : Nat → Nat) :
    (subscribeCase ws msg ci s rs).1.clients = s.clients
    ∨ ∃ b, (subscribeCase ws msg ci s rs).1.clients
        = alset s.clients ws { ci with subscribedToBusId := some b } := by
  unfold subscribeCase
  simp only [apply_ite ServerState.busLocations, apply_ite ServerState.clients,
    apply_ite ServerState.busSubscriptions, subRemoveOld_busLocations,
    subRemoveOld_clients, ite_self]
  repeat' split
  all_goals first
    | exact Or.inl rfl
    | exact Or.inr ⟨_, rfl⟩

theorem unsubscribeCase_clients_shape (ws : Nat) (msg : ClientMessage) (ci : ClientInfo)
    (s : ServerState) (rs : Nat → Nat) :
    (unsubscribeCase ws msg ci s rs).1.clients = s.clients
    ∨ (unsubscribeCase ws msg ci s rs).1.clients
        = alset s.clients ws { ci with subscribedToBusId := none } := by
  unfold unsubscribeCase
  simp only [apply_ite ServerState.clients, subRemoveOld_clients, ite_self]
  repeat' split
  all_goals first
    | exact Or.inl rfl
    | exact Or.inr rfl

/-! ### Preservation of the driver-has-busId invariant -/

theorem driverHasBusId_alset {s : ServerState} {ws : Nat} {ci : ClientInfo}
    (ci' : ClientInfo) (h : driverHasBusId s) (hci : alget s.clients ws = some ci)
    (hty : ci'.type = ci.type) (hbus : ci'.busId = ci.busId) :
    ∀ p ∈ alset s.clients ws ci',
      p.2.type = ClientType.bus_driver → strTruthy p.2.busId = true := by
  intro p hp hdrv
  rcases mem_alset hp with rfl | ⟨hm, _⟩
  · show strTruthy ci'.busId = true
    rw [hbus]
    exact h (ws, ci) (alget_mem hci) (by rw [← hty]; exact hdrv)
  · exact h p hm hdrv

theorem driverHasBusId_locationCase {s : ServerState} {ws : Nat} {msg : ClientMessage}
    {ci : ClientInfo} {rs : Nat → Nat} (h : driverHasBusId s)
    (hci : alget s.clients ws = some ci) :
    driverHasBusId (locationCase ws msg ci s rs).1 := by
  intro p hp
  rcases locationCase_clients_shape ws msg ci s rs with hcl | ⟨bl, hcl⟩
  · rw [hcl] at hp
    exact h p hp
  · rw [hcl] at hp
    exact driverHasBusId_alset { ci with lastLocation := some bl } h hci rfl rfl p hp

theorem driverHasBusId_registerCore {s : ServerState} {ws : Nat} {msg : ClientMessage}
    {ci : ClientInfo} {rs : Nat → Nat} (h : driverHasBusId s)
    (hci : alget s.clients ws = some ci) :
    driverHasBusId (registerCore ws msg ci s rs).1 := by
  unfold registerCore
  cases hct : msg.clientType with
  | none => exact driverHasBusId_locationCase h hci
  | some ct =>
      dsimp only
      split
      · exact h
      · split
        · exact h
        · rename_i hneg1 hneg2
          intro p hp hdrv
          rcases mem_alset hp with rfl | ⟨hm, _⟩
          · have hctd : ct = ClientType.bus_driver := hdrv
            have hmb : strTruthy msg.busId = true := by
              by_contra hmb
              exact hneg1 (by simp [hctd, Bool.eq_false_iff.mpr hmb])
            show strTruthy (if strTruthy msg.busId then msg.busId else ci.busId) = true
            rw [if_pos hmb]
            exact hmb
          · exact h p hm hdrv

theorem driverHasBusId_hcm (s : ServerState) (ws : Nat) (msg : ClientMessage)
    (rs : Nat → Nat) (h : driverHasBusId s) :
    driverHasBusId (handleClientMessage ws msg s rs).1 := by
  unfold handleClientMessage
  cases hci : alget s.clients ws with
  | none => exact h
  | some ci =>
      dsimp only
      repeat' split
      · unfold registerCase
        split
        · exact h
        · exact driverHasBusId_registerCore h hci
      · exact driverHasBusId_locationCase h hci
      · intro p hp
        rcases subscribeCase_clients_shape ws msg ci s rs with hcl | ⟨b, hcl⟩
        · rw [hcl] at hp
          exact h p hp
        · rw [hcl] at hp
          exact driverHasBusId_alset { ci with subscribedToBusId := some b } h hci rfl rfl p hp
      · intro p hp
        rcases unsubscribeCase_clients_shape ws msg ci s rs with hcl | hcl
        · rw [hcl] at hp
          exact h p hp
        · rw [hcl] at hp
          exact driverHasBusId_alset { ci with subscribedToBusId := none } h hci rfl rfl p hp
      · exact h

theorem driverHasBusId_hcmP0 (s : ServerState) (ws : Nat) (msg : ClientMessage)
    (rs : Nat → Nat) (h : driverHasBusId s) :
    driverHasBusId (handleClientMessageP0 ws msg s rs).1 := by
  unfold handleClientMessageP0
  cases hci : alget s.clients ws with
  | none => exact h
  | some ci =>
      dsimp only
      repeat' split
      · unfold registerCaseP0
        split
        · exact h
        · split
          · exact h
          · exact driverHasBusId_registerCore h hci
      · exact driverHasBusId_locationCase h hci
      · intro p hp
        rcases unsubscribeCase_clients_shape ws msg ci s rs with hcl | hcl
        · rw [hcl] at hp
          exact h p hp
        · rw [hcl] at hp
          exact driverHasBusId_alset { ci with subscribedToBusId := none } h hci rfl rfl p hp
      · exact h

theorem notifySubsAndEvict_fst (b : String) (s2 : ServerState) (rs : Nat → Nat) :
    (notifySubsAndEvict b s2 rs).1
      = { s2 with busLocations := aldel s2.busLocations b } := by
  unfold notifySubsAndEvict
  dsimp only
  cases hg : alget s2.busSubscriptions b with
  | none => simp only [hg]
  | some subs =>
      simp only [hg]
      split <;> rfl

theorem notifySubsAndEvict_clients (b : String) (s2 : ServerState) (rs : Nat → Nat) :
    (notifySubsAndEvict b s2 rs).1.clients = s2.clients := by
  rw [notifySubsAndEvict_fst]

theorem onClose_clients (ws : Nat) (s : ServerState) (rs : Nat → Nat) {ci : ClientInfo}
    (hci : alget s.clients ws = some ci) :
    (onClose ws s rs).1.clients = aldel s.clients ws := by
  unfold onClose
  simp only [hci, apply_ite (Prod.fst : ServerState × List Out → ServerState),
    apply_ite ServerState.clients, notifySubsAndEvict_clients,
    subRemoveOld_clients, ite_self]

theorem driverHasBusId_onClose (s : ServerState) (ws : Nat) (rs : Nat → Nat)
    (h : driverHasBusId s) : driverHasBusId (onClose ws s rs).1 := by
  cases hci : alget s.clients ws with
  | none =>
      unfold onClose
      simp only [hci]
      exact h
  | some ci =>
      intro p hp
      rw [onClose_clients ws s rs hci] at hp
      exact h p (mem_aldel hp).1

theorem cleanupStep_clients (s : ServerState) (w : Nat) :
    (cleanupStep s w).clients = aldel s.clients w := by
  unfold cleanupStep
  cases hci : alget s.clients w with
  | none => rw [aldel_of_alget_none hci]
  | some ci =>
      simp only [apply_ite ServerState.clients, subRemoveOld_clients, ite_self]

theorem cleanup_foldl_clients (ds : List Nat) (s : ServerState) :
    (ds.foldl cleanupStep s).clients = ds.foldl aldel s.clients := by
  induction ds generalizing s with
  | nil => rfl
  | cons d t ih => rw [List.foldl_cons, List.foldl_cons, ih, cleanupStep_clients]

theorem mem_foldl_aldel {p : Nat × ClientInfo} :
    ∀ (ds : List Nat) (l : List (Nat × ClientInfo)), p ∈ ds.foldl aldel l → p ∈ l := by
  intro ds
  induction ds with
  | nil => intro l hp; exact hp
  | cons d t ih =>
      intro l hp
      rw [List.foldl_cons] at hp
      exact (mem_aldel (ih _ hp)).1

theorem driverHasBusId_cleanup (s : ServerState) (rs : Nat → Nat)
    (h : driverHasBusId s) : driverHasBusId (cleanupDeadConnections s rs).1 := by
  unfold cleanupDeadConnections
  dsimp only
  split
  · intro p hp
    rw [cleanup_foldl_clients] at hp
    exact h p (mem_foldl_aldel _ _ hp)
  · exact h

/-! ### Preservation of userId uniqueness (second variant) -/

theorem uniqueUserIds_alset_same {s : ServerState} {ws : Nat} {ci : ClientInfo}
    (ci' : ClientInfo) (h : uniqueUserIds s) (hci : alget s.clients ws = some ci)
    (hid : ci'.userId = ci.userId) :
    ∀ p ∈ alset s.clients ws ci', ∀ q ∈ alset s.clients ws ci',
      p.1 ≠ q.1 → p.2.userId ≠ "" → p.2.userId ≠ q.2.userId := by
  intro p hp q hq hne hne2
  rcases mem_alset hp with rfl | ⟨hpm, hpne⟩
  · rcases mem_alset hq with rfl | ⟨hqm, hqne⟩
    · exact absurd rfl hne
    · show ci'.userId ≠ q.2.userId
      have hne2' : ci.userId ≠ "" := by
        rw [← hid]; exact hne2
      rw [hid]
      exact h (ws, ci) (alget_mem hci) q hqm hne hne2'
  · rcases mem_alset hq with rfl | ⟨hqm, hqne⟩
    · show p.2.userId ≠ ci'.userId
      rw [hid]
      exact h p hpm (ws, ci) (alget_mem hci) hpne hne2
    · exact h p hpm q hqm hne hne2

theorem uniqueUserIds_alset_new {s : ServerState} {ws : Nat}
    (ci' : ClientInfo) (h : uniqueUserIds s)
    (hguard : ∀ r ∈ s.clients, r.1 ≠ ws → r.2.userId ≠ ci'.userId) :
    ∀ p ∈ alset s.clients ws ci', ∀ q ∈ alset s.clients ws ci',
      p.1 ≠ q.1 → p.2.userId ≠ "" → p.2.userId ≠ q.2.userId := by
  intro p hp q hq hne hne2
  rcases mem_alset hp with rfl | ⟨hpm, hpne⟩
  · rcases mem_alset hq with rfl | ⟨hqm, hqne⟩
    · exact absurd rfl hne
    · exact (hguard q hqm hqne).symm
  · rcases mem_alset hq with rfl | ⟨hqm, hqne⟩
    · exact hguard p hpm hpne
    · exact h p hpm q hqm hne hne2

theorem uniqueUserIds_locationCase {s : ServerState} {ws : Nat} {msg : ClientMessage}
    {ci : ClientInfo} {rs : Nat → Nat} (h : uniqueUserIds s)
    (hci : alget s.clients ws = some ci) :
    uniqueUserIds (locationCase ws msg ci s rs).1 := by
  intro p hp q hq hne hne2
  rcases locationCase_clients_shape ws msg ci s rs with hcl | ⟨bl, hcl⟩
  · rw [hcl] at hp hq
    exact h p hp q hq hne hne2
  · rw [hcl] at hp hq
    exact uniqueUserIds_alset_same { ci with lastLocation := some bl } h hci rfl
      p hp q hq hne hne2

theorem uniqueUserIds_unsubscribeCase {s : ServerState} {ws : Nat} {msg : ClientMessage}
    {ci : ClientInfo} {rs : Nat → Nat} (h : uniqueUserIds s)
    (hci : alget s.clients ws = some ci) :
    uniqueUserIds (unsubscribeCase ws msg ci s rs).1 := by
  intro p hp q hq hne hne2
  rcases unsubscribeCase_clients_shape ws msg ci s rs with hcl | hcl
  · rw [hcl] at hp hq
    exact h p hp q hq hne hne2
  · rw [hcl] at hp hq
    exact uniqueUserIds_alset_same { ci with subscribedToBusId := none } h hci rfl
      p hp q hq hne hne2

theorem uniqueUserIds_hcmP0 (s : ServerState) (ws : Nat) (msg : ClientMessage)
    (rs : Nat → Nat) (h : uniqueUserIds s) :
    uniqueUserIds (handleClientMessageP0 ws msg s rs).1 := by
  unfold handleClientMessageP0
  cases hci : alget s.clients ws with
  | none => exact h
  | some ci =>
      dsimp only
      repeat' split
      · unfold registerCaseP0
        split
        · exact h
        · split
          · exact h
          · rename_i hu hdup
            unfold registerCore
            cases hct : msg.clientType with
            | none => exact uniqueUserIds_locationCase h hci
            | some ct =>
                dsimp only
                split
                · exact h
                · split
                  · exact h
                  · intro p hp q hq hne hne2
                    refine uniqueUserIds_alset_new _ h ?_ p hp q hq hne hne2
                    intro r hr hrne hrequ
                    apply hdup
                    rw [List.any_eq_true]
                    exact ⟨r, hr, by simp [hrne, hrequ]⟩
      · exact uniqueUserIds_locationCase h hci
      · exact uniqueUserIds_unsubscribeCase h hci
      · exact h

/-! ### Concrete material shared by witnesses and counterexamples -/

/-- Readiness map with every transport open. -/
def rsAllOpen : Nat → Nat := fun _ => WS_OPEN

/-- A sample cached location payload for bus `bus_001` produced by `d1`. -/
def locSample : BroadcastLocationData :=
  { latitude := 14, longitude := 120, accuracy := none, timestamp := 1641234567890,
    busId := "bus_001", userId := "d1" }

/-- A registered driver record for bus `bus_001`. -/
def ciDriver : ClientInfo :=
  { id := "d", type := ClientType.bus_driver, busId := some "bus_001", userId := "d1",
    lastLocation := none, connected := true, subscribedToBusId := none }

/-! ### Claim C2 -/

/-- C2: for every connection whose registered role is not driver or admin, or
whose role is driver/admin but without a `busId`, any `location_update` it
sends is answered with a single `error` message to the sender only, and the
whole server state — in particular `busLocations` (BusLocationCache) and
`busSubscriptions` (SubscriptionIndex) — is unchanged by the event. -/
theorem location_update_role_gating
    (s : ServerState) (ws : Nat) (msg : ClientMessage) (rs : Nat → Nat) (ci : ClientInfo)
    (hci : alget s.clients ws = some ci)
    (hty : msg.type = "location_update")
    (hrole : (ci.type = ClientType.bus_driver ∨ ci.type = ClientType.admin) →
      strTruthy ci.busId = false) :
    ∃ e, handleClientMessage ws msg s rs = (s, [(ws, ServerMessage.errorMsg e)]) := by
  rw [hcm_locationCase hci hty]
  unfold locationCase
  by_cases hu : strTruthy msg.userId
  case neg =>
    refine ⟨"register first with userId", ?_⟩
    rw [if_pos (by simp [Bool.eq_false_iff.mpr hu])]
  case pos =>
    have hcond : (msg.data.isSome
        && (ci.type = ClientType.bus_driver || ci.type = ClientType.admin)
        && strTruthy ci.busId) = false := by
      by_cases hdr : ci.type = ClientType.bus_driver ∨ ci.type = ClientType.admin
      · simp [hrole hdr]
      · push_neg at hdr
        simp [hdr.1, hdr.2]
    rw [if_neg (by simp [hu]), if_neg (by simp [hcond])]
    by_cases hbus : strTruthy ci.busId
    · refine ⟨"Only bus drivers and admins can broadcast location updates", ?_⟩
      rw [if_neg (by simp [hbus])]
    · refine ⟨"Must register with a busId to send location updates", ?_⟩
      rw [if_pos (by simp [Bool.eq_false_iff.mpr hbus])]

/-- Witness for C2: a default (unregistered passenger) connection sending a
well-formed location update is answered with exactly one error. -/
theorem location_update_role_gating_witness :
    ∃ e, handleClientMessage 0
      { type := "location_update", data := some ⟨14, 120, none, 5⟩, busId := none,
        userId := some "p1", clientType := none, subscribeToBusId := none }
      { clients := [(0, freshClientInfo "c0")], busLocations := [], busSubscriptions := [] }
      rsAllOpen
      = ({ clients := [(0, freshClientInfo "c0")], busLocations := [],
           busSubscriptions := [] }, [(0, ServerMessage.errorMsg e)]) :=
  location_update_role_gating _ 0 _ rsAllOpen (freshClientInfo "c0") rfl rfl (by decide)

/-! ### Claim C9 -/

/-- C9: every `location_update`, `subscribe` or `unsubscribe` message whose
own `userId` field is missing or empty is answered with the error
"register first with userId" and changes nothing — whatever the sender's
registration state (the gate reads only the message). -/
theorem missing_userId_gate
    (s : ServerState) (ws : Nat) (msg : ClientMessage) (rs : Nat → Nat) (ci : ClientInfo)
    (hci : alget s.clients ws = some ci)
    (hty : msg.type = "location_update" ∨ msg.type = "subscribe" ∨ msg.type = "unsubscribe")
    (hu : strTruthy msg.userId = false) :
    handleClientMessage ws msg s rs
      = (s, [(ws, ServerMessage.errorMsg "register first with userId")]) := by
  rcases hty with h | h | h
  · rw [hcm_locationCase hci h]; unfold locationCase; rw [if_pos (by simp [hu])]
  · rw [hcm_subscribeCase hci h]; unfold subscribeCase; rw [if_pos (by simp [hu])]
  · rw [hcm_unsubscribeCase hci h]; unfold unsubscribeCase; rw [if_pos (by simp [hu])]

/-- Witness for C9: even a fully registered and authorized driver has its
location update rejected when the message itself omits `userId`. -/
theorem missing_userId_gate_witness :
    handleClientMessage 7
      { type := "location_update", data := some ⟨1, 2, none, 3⟩, busId := none,
        userId := none, clientType := none, subscribeToBusId := none }
      { clients := [(7, ciDriver)], busLocations := [], busSubscriptions := [] } rsAllOpen
      = ({ clients := [(7, ciDriver)], busLocations := [], busSubscriptions := [] },
         [(7, ServerMessage.errorMsg "register first with userId")]) :=
  missing_userId_gate _ 7 _ rsAllOpen ciDriver rfl (Or.inl rfl) rfl

/-! ### Claim C4 -/

/-- C4 (amended: the subscribe message must carry a non-empty `userId`, since
the userId gate otherwise rejects it): a `subscribe` naming a busId with a
cache entry makes the replies of that event exactly one `location_broadcast`
to the subscriber carrying the cached payload — so it precedes the replies of
any later event. -/
theorem subscribe_replay_cached_location
    (s : ServerState) (ws : Nat) (msg : ClientMessage) (rs : Nat → Nat)
    (ci : ClientInfo) (b : String) (loc : BroadcastLocationData)
    (hci : alget s.clients ws = some ci)
    (hty : msg.type = "subscribe")
    (hu : strTruthy msg.userId = true)
    (hb : msg.subscribeToBusId = some b) (hbne : b ≠ "")
    (hloc : alget s.busLocations b = some loc) :
    (handleClientMessage ws msg s rs).2 = [(ws, ServerMessage.locationBroadcast loc)] := by
  rw [hcm_subscribeCase hci hty,
    subscribeCase_out_shape ws msg ci s rs b hu hb hbne, hloc]

/-- The subscribe message used against C4 as stated: it names the cached bus
but carries no `userId`. -/
def subNoUid : ClientMessage :=
  { type := "subscribe", data := none, busId := none, userId := none,
    clientType := none, subscribeToBusId := some "bus_001" }

/-- A state with a cached location for `bus_001` and a fresh passenger. -/
def sCached : ServerState :=
  { clients := [(2, freshClientInfo "p")], busLocations := [("bus_001", locSample)],
    busSubscriptions := [] }

/-- Counterexample to C4 as stated: a `subscribe` event naming a busId whose
cache entry exists is answered by an error — not by a `location_broadcast` —
when the message omits `userId`. -/
theorem subscribe_replay_missing_userId_cx :
    handleClientMessage 2 subNoUid sCached rsAllOpen
      = (sCached, [(2, ServerMessage.errorMsg "register first with userId")]) := by
  decide

/-- The well-formed subscribe message used by the C4 witness. -/
def subOkMsg : ClientMessage :=
  { type := "subscribe", data := none, busId := none, userId := some "p9",
    clientType := none, subscribeToBusId := some "bus_001" }

/-- Witness for the amended C4 at a concrete cached state. -/
theorem subscribe_replay_cached_location_witness :
    (handleClientMessage 2 subOkMsg sCached rsAllOpen).2
      = [(2, ServerMessage.locationBroadcast locSample)] :=
  subscribe_replay_cached_location sCached 2 subOkMsg rsAllOpen
    (freshClientInfo "p") "bus_001" locSample rfl rfl (by decide) rfl (by decide) rfl

/-! ### Claim C3 -/

/-- C3 (amended: the subscribe message must carry a non-empty `userId`, since
the userId gate otherwise rejects it): subscribing to bus `b` while
subscribed to bus `a` puts the connection into `b`'s subscriber set (creating
the key if absent), removes it (for `a ≠ b`) from `a`'s set — deleting `a`'s
key if the set became empty — records the new subscription on the connection,
and never replies with an error (the only possible reply is the cache
replay). -/
theorem subscribe_replaces_subscription
    (s : ServerState) (ws : Nat) (msg : ClientMessage) (rs : Nat → Nat)
    (ci : ClientInfo) (a b : String)
    (hci : alget s.clients ws = some ci)
    (hty : msg.type = "subscribe")
    (hu : strTruthy msg.userId = true)
    (hsub : ci.subscribedToBusId = some a) (hane : a ≠ "")
    (hb : msg.subscribeToBusId = some b) (hbne : b ≠ "") :
    (∃ lB, alget (handleClientMessage ws msg s rs).1.busSubscriptions b = some lB
      ∧ ws ∈ lB)
    ∧ (a ≠ b → ∀ l, alget (handleClientMessage ws msg s rs).1.busSubscriptions a = some l
        → ws ∉ l)
    ∧ (a ≠ b → ∀ l0, alget s.busSubscriptions a = some l0 → sdel l0 ws = [] →
        alget (handleClientMessage ws msg s rs).1.busSubscriptions a = none)
    ∧ (∃ ci', alget (handleClientMessage ws msg s rs).1.clients ws = some ci'
        ∧ ci'.subscribedToBusId = some b)
    ∧ (∀ o ∈ (handleClientMessage ws msg s rs).2,
        o.1 = ws ∧ ∃ d, o.2 = ServerMessage.locationBroadcast d) := by
  rw [hcm_subscribeCase hci hty]
  refine ⟨subscribeCase_adds_subscriber ws msg ci s rs b hu hb hbne, ?_, ?_, ?_, ?_⟩
  · intro hab l hl
    rw [subscribeCase_old_bus ws msg ci s rs a b hu hb hbne hsub hane hab] at hl
    exact subRemoveOld_self_not_mem ws a s l hl
  · intro hab l0 hg hdel
    rw [subscribeCase_old_bus ws msg ci s rs a b hu hb hbne hsub hane hab]
    exact subRemoveOld_prune ws a s l0 hg hdel
  · rw [subscribeCase_clients_eq ws msg ci s rs b hu hb hbne]
    exact ⟨_, alget_alset_self _ _ _, rfl⟩
  · intro o ho
    rw [subscribeCase_out_shape ws msg ci s rs b hu hb hbne] at ho
    cases hbl : alget s.busLocations b with
    | some loc =>
        simp only [hbl, List.mem_singleton] at ho
        subst ho
        exact ⟨rfl, loc, rfl⟩
    | none =>
        simp only [hbl] at ho
        exact absurd ho (List.not_mem_nil o)

/-- The connection record of the C3 scenario: already subscribed to `busA`. -/
def ciSubA : ClientInfo :=
  { freshClientInfo "q" with userId := "p1", subscribedToBusId := some "busA" }

/-- The C3 scenario state: connection 3 subscribed to `busA`. -/
def sSubA : ServerState :=
  { clients := [(3, ciSubA)], busLocations := [], busSubscriptions := [("busA", [3])] }

/-- Counterexample to C3 as stated: a `subscribe` event naming bus `busB`
from a connection subscribed to `busA` is answered with an error, and the
connection stays in `busA`'s subscriber set and is never added to `busB`,
when the message omits `userId` — refuting "subscribe always succeeds and
never errors". -/
theorem subscribe_missing_userId_errors_cx :
    handleClientMessage 3
      { type := "subscribe", data := none, busId := none, userId := none,
        clientType := none, subscribeToBusId := some "busB" } sSubA rsAllOpen
      = (sSubA, [(3, ServerMessage.errorMsg "register first with userId")])
    ∧ alget sSubA.busSubscriptions "busA" = some [3]
    ∧ alget sSubA.busSubscriptions "busB" = none := by
  decide

/-- The well-formed subscribe message used by the C3 witness. -/
def subBMsg : ClientMessage :=
  { type := "subscribe", data := none, busId := none, userId := some "p1",
    clientType := none, subscribeToBusId := some "busB" }

/-- Witness for the amended C3 at the concrete re-subscription scenario. -/
theorem subscribe_replaces_subscription_witness :
    (∃ lB, alget (handleClientMessage 3 subBMsg sSubA rsAllOpen).1.busSubscriptions "busB"
      = some lB ∧ 3 ∈ lB)
    ∧ ("busA" ≠ "busB" →
        ∀ l, alget (handleClientMessage 3 subBMsg sSubA rsAllOpen).1.busSubscriptions "busA"
          = some l → 3 ∉ l)
    ∧ ("busA" ≠ "busB" → ∀ l0, alget sSubA.busSubscriptions "busA" = some l0 →
        sdel l0 3 = [] →
        alget (handleClientMessage 3 subBMsg sSubA rsAllOpen).1.busSubscriptions "busA" = none)
    ∧ (∃ ci', alget (handleClientMessage 3 subBMsg sSubA rsAllOpen).1.clients 3 = some ci'
        ∧ ci'.subscribedToBusId = some "busB")
    ∧ (∀ o ∈ (handleClientMessage 3 subBMsg sSubA rsAllOpen).2,
        o.1 = 3 ∧ ∃ d, o.2 = ServerMessage.locationBroadcast d) :=
  subscribe_replaces_subscription sSubA 3 subBMsg rsAllOpen ciSubA "busA" "busB"
    rfl rfl (by decide) rfl (by decide) rfl (by decide)

/-! ### Claim C6 -/

/-- C6 (amended: the unsubscribe message must carry a non-empty `userId`,
since the userId gate otherwise replies with an error): an `unsubscribe`
event produces no reply at all; with no active subscription it is a complete
no-op, and with an active subscription to `a` it removes the connection from
`a`'s subscriber set (deleting the key when the set became empty) and clears
the connection's subscription field. -/
theorem unsubscribe_idempotent_no_error
    (s : ServerState) (ws : Nat) (msg : ClientMessage) (rs : Nat → Nat) (ci : ClientInfo)
    (hci : alget s.clients ws = some ci)
    (hty : msg.type = "unsubscribe")
    (hu : strTruthy msg.userId = true) :
    (handleClientMessage ws msg s rs).2 = []
    ∧ (strTruthy ci.subscribedToBusId = false → (handleClientMessage ws msg s rs).1 = s)
    ∧ (∀ a, ci.subscribedToBusId = some a → a ≠ "" →
        (∀ l, alget (handleClientMessage ws msg s rs).1.busSubscriptions a = some l → ws ∉ l)
        ∧ (∀ l0, alget s.busSubscriptions a = some l0 → sdel l0 ws = [] →
            alget (handleClientMessage ws msg s rs).1.busSubscriptions a = none)
        ∧ (∃ ci', alget (handleClientMessage ws msg s rs).1.clients ws = some ci'
            ∧ ci'.subscribedToBusId = none)) := by
  rw [hcm_unsubscribeCase hci hty]
  unfold unsubscribeCase
  rw [if_neg (by simp [hu])]
  by_cases hsubb : strTruthy ci.subscribedToBusId = true
  · rw [if_pos hsubb]
    refine ⟨rfl, ?_, ?_⟩
    · intro hf
      rw [hf] at hsubb
      exact absurd hsubb (by simp)
    · intro a hsub hane
      simp only [hsub, Option.getD_some]
      refine ⟨?_, ?_, ?_⟩
      · intro l hl
        exact subRemoveOld_self_not_mem ws a s l hl
      · intro l0 hg hdel
        exact subRemoveOld_prune ws a s l0 hg hdel
      · exact ⟨_, alget_alset_self _ _ _, rfl⟩
  · rw [if_neg hsubb]
    refine ⟨rfl, fun _ => rfl, ?_⟩
    intro a hsub hane
    exact absurd (by rw [hsub]; exact strTruthy_some hane) hsubb

/-- Counterexample to C6 as stated: an `unsubscribe` message without a
`userId` field is answered with an error — refuting "never produces an error
or a broadcast, regardless of the content of the unsubscribe message". -/
theorem unsubscribe_missing_userId_errors_cx :
    handleClientMessage 2
      { type := "unsubscribe", data := none, busId := none, userId := none,
        clientType := none, subscribeToBusId := none }
      { clients := [(2, freshClientInfo "p")], busLocations := [], busSubscriptions := [] }
      rsAllOpen
      = ({ clients := [(2, freshClientInfo "p")], busLocations := [],
           busSubscriptions := [] },
         [(2, ServerMessage.errorMsg "register first with userId")]) := by
  decide

/-- The unsubscribe message used by the C6 witness. -/
def unsubMsg : ClientMessage :=
  { type := "unsubscribe", data := none, busId := none, userId := some "p1",
    clientType := none, subscribeToBusId := none }

/-- Witness for the amended C6 at the concrete subscribed connection. -/
theorem unsubscribe_idempotent_no_error_witness :
    (handleClientMessage 3 unsubMsg sSubA rsAllOpen).2 = []
    ∧ (strTruthy ciSubA.subscribedToBusId = false →
        (handleClientMessage 3 unsubMsg sSubA rsAllOpen).1 = sSubA)
    ∧ (∀ a, ciSubA.subscribedToBusId = some a → a ≠ "" →
        (∀ l, alget (handleClientMessage 3 unsubMsg sSubA rsAllOpen).1.busSubscriptions a
          = some l → 3 ∉ l)
        ∧ (∀ l0, alget sSubA.busSubscriptions a = some l0 → sdel l0 3 = [] →
            alget (handleClientMessage 3 unsubMsg sSubA rsAllOpen).1.busSubscriptions a
              = none)
        ∧ (∃ ci', alget (handleClientMessage 3 unsubMsg sSubA rsAllOpen).1.clients 3
            = some ci' ∧ ci'.subscribedToBusId = none)) :=
  unsubscribe_idempotent_no_error sSubA 3 unsubMsg rsAllOpen ciSubA rfl rfl (by decide)

/-- A `register` message without `clientType`, used by several witnesses. -/
def regNoCT : ClientMessage :=
  { type := "register", data := some ⟨1, 2, none, 3⟩, busId := none,
    userId := some "d1", clientType := none, subscribeToBusId := none }

/-- A registry holding one driver connection, used by several witnesses. -/
def sOneDriver : ServerState :=
  { clients := [(0, ciDriver)], busLocations := [], busSubscriptions := [] }

/-! ### Lemmas about the periodic sweep -/

/-- The subscriber set recorded for bus `b` (empty when the key is absent). -/
def subsOf (s : ServerState) (b : String) : List Nat :=
  (alget s.busSubscriptions b).getD []

theorem mem_subsOf {x : Nat} {s : ServerState} {b : String} :
    x ∈ subsOf s b ↔ ∃ l, alget s.busSubscriptions b = some l ∧ x ∈ l := by
  unfold subsOf
  cases hg : alget s.busSubscriptions b with
  | none => simp
  | some l => simp

theorem cleanupStep_busLocations (s : ServerState) (w : Nat) :
    (cleanupStep s w).busLocations = s.busLocations := by
  unfold cleanupStep
  cases hci : alget s.clients w with
  | none => rfl
  | some ci =>
      simp only [apply_ite ServerState.busLocations, subRemoveOld_busLocations, ite_self]

theorem cleanup_foldl_busLocations (ds : List Nat) (s : ServerState) :
    (ds.foldl cleanupStep s).busLocations = s.busLocations := by
  induction ds generalizing s with
  | nil => rfl
  | cons d t ih => rw [List.foldl_cons, ih, cleanupStep_busLocations]

theorem alget_none_of_not_mem_keys {l : List (Nat × ClientInfo)} {w : Nat}
    (h : w ∉ alkeys l) : alget l w = none :=
  alget_eq_none_of_forall fun _ hp hh => h (hh ▸ List.mem_map_of_mem Prod.fst hp)

theorem alget_foldl_aldel (ds : List Nat) (l : List (Nat × ClientInfo)) (w : Nat) :
    alget (ds.foldl aldel l) w = if w ∈ ds then none else alget l w := by
  induction ds generalizing l with
  | nil => simp
  | cons d t ih =>
      rw [List.foldl_cons, ih]
      by_cases hwt : w ∈ t
      · rw [if_pos hwt, if_pos (List.mem_cons.mpr (Or.inr hwt))]
      · rw [if_neg hwt, alget_aldel]
        by_cases hwd : w = d
        · rw [if_pos hwd, if_pos (List.mem_cons.mpr (Or.inl hwd))]
        · rw [if_neg hwd, if_neg (by simp [hwd, hwt])]

theorem cleanupStep_subs_subset {x : Nat} {b : String} (t : ServerState) (w : Nat)
    (hx : x ∈ subsOf (cleanupStep t w) b) : x ∈ subsOf t b := by
  unfold cleanupStep at hx
  cases hci : alget t.clients w with
  | none =>
      simp only [hci] at hx
      exact hx
  | some ci =>
      simp only [hci] at hx
      have hx' : x ∈ subsOf (if strTruthy ci.subscribedToBusId = true then
          subRemoveOld w (ci.subscribedToBusId.getD "") t else t) b := hx
      split at hx'
      · rcases mem_subsOf.mp hx' with ⟨l, hl, hxl⟩
        rcases subRemoveOld_mem_subset w x _ b t l hl hxl with ⟨l0, hl0, hxl0⟩
        exact mem_subsOf.mpr ⟨l0, hl0, hxl0⟩
      · exact hx'

theorem cleanup_foldl_subs_subset {x : Nat} {b : String} :
    ∀ (ds : List Nat) (t : ServerState),
      x ∈ subsOf (ds.foldl cleanupStep t) b → x ∈ subsOf t b := by
  intro ds
  induction ds with
  | nil => intro t hx; exact hx
  | cons d tl ih =>
      intro t hx
      rw [List.foldl_cons] at hx
      exact cleanupStep_subs_subset _ _ (ih _ hx)

theorem cleanupStep_removes_self (t : ServerState) (w : Nat) (b : String)
    (ci : ClientInfo) (hci : alget t.clients w = some ci)
    (hsub : ci.subscribedToBusId = some b) (hbne : b ≠ "") :
    w ∉ subsOf (cleanupStep t w) b := by
  intro hx
  unfold cleanupStep at hx
  simp only [hci] at hx
  have hct : strTruthy ci.subscribedToBusId = true := by
    rw [hsub]; exact strTruthy_some hbne
  have hx' : w ∈ subsOf (if strTruthy ci.subscribedToBusId = true then
      subRemoveOld w (ci.subscribedToBusId.getD "") t else t) b := hx
  rw [if_pos hct] at hx'
  rcases mem_subsOf.mp hx' with ⟨l, hl, hxl⟩
  simp only [hsub, Option.getD_some] at hl
  exact subRemoveOld_self_not_mem w b t l hl hxl

/-! ### Claim C7 -/

/-- The one-dead-driver state for the C7 counterexample. -/
def sDeadDriver : ServerState :=
  { clients := [(5, ciDriver)], busLocations := [("bus_001", locSample)],
    busSubscriptions := [] }

/-- Readiness map in which socket 5 is closed and everything else open. -/
def rsDead5 : Nat → Nat := fun w => if w = 5 then WS_CLOSED else WS_OPEN

/-- Counterexample to C7 as stated: sweeping a state whose only connection is
a dead driver of `bus_001` removes the connection but leaves the bus's cache
entry in place, whereas the close-path cleanup on the same state evicts it —
so the sweep does not perform the same cleanup as the close path. -/
theorem sweep_skips_cache_eviction_cx :
    (cleanupDeadConnections sDeadDriver rsDead5).1.clients = []
    ∧ (cleanupDeadConnections sDeadDriver rsDead5).1.busLocations
        = [("bus_001", locSample)]
    ∧ (onClose 5 sDeadDriver rsDead5).1.busLocations = [] := by
  decide

/-- C7 (amended: the sweep performs only the subscription/registry part of
the close-path cleanup — it never runs the bus-cache eviction check and sends
no offline notifications): the sweep removes exactly the closed/closing
connections from the registry, removes each such connection from the
subscriber set of the bus its record names, leaves BusLocationCache
untouched, is a silent no-op when nothing is dead, and otherwise emits
exactly one client-list broadcast computed from the swept state. -/
theorem sweep_cleanup_behavior
    (s : ServerState) (rs : Nat → Nat)
    (hnd : (s.clients.map Prod.fst).Nodup) :
    (cleanupDeadConnections s rs).1.busLocations = s.busLocations
    ∧ (∀ w, alget (cleanupDeadConnections s rs).1.clients w
        = if rs w = WS_CLOSED ∨ rs w = WS_CLOSING then none else alget s.clients w)
    ∧ (((alkeys s.clients).filter fun x => rs x = WS_CLOSED || rs x = WS_CLOSING) = [] →
        cleanupDeadConnections s rs = (s, []))
    ∧ (((alkeys s.clients).filter fun x => rs x = WS_CLOSED || rs x = WS_CLOSING) ≠ [] →
        (cleanupDeadConnections s rs).2
          = broadcastClientList (cleanupDeadConnections s rs).1 rs)
    ∧ (∀ w ci b, (rs w = WS_CLOSED ∨ rs w = WS_CLOSING) →
        alget s.clients w = some ci → ci.subscribedToBusId = some b → b ≠ "" →
        w ∉ subsOf (cleanupDeadConnections s rs).1 b) := by
  refine ⟨?_, ?_, ?_, ?_, ?_⟩
  · unfold cleanupDeadConnections
    dsimp only
    split
    · exact cleanup_foldl_busLocations _ _
    · rfl
  · intro w
    unfold cleanupDeadConnections
    dsimp only
    split
    · rw [cleanup_foldl_clients, alget_foldl_aldel]
      by_cases hpred : rs w = WS_CLOSED ∨ rs w = WS_CLOSING
      · rw [if_pos hpred]
        by_cases hk : w ∈ alkeys s.clients
        · rw [if_pos (List.mem_filter.mpr
            ⟨hk, by rcases hpred with h | h <;> simp [h]⟩)]
        · rw [if_neg (fun hin => hk (List.mem_filter.mp hin).1),
            alget_none_of_not_mem_keys hk]
      · have hnin : w ∉ (alkeys s.clients).filter
            (fun x => rs x = WS_CLOSED || rs x = WS_CLOSING) := by
          intro hin
          have hb := (List.mem_filter.mp hin).2
          simp only [Bool.or_eq_true, decide_eq_true_eq] at hb
          exact hpred hb
        rw [if_neg hnin, if_neg hpred]
    · rename_i hlen
      have hnil : ((alkeys s.clients).filter
          fun x => rs x = WS_CLOSED || rs x = WS_CLOSING) = [] :=
        List.length_eq_zero.mp (Nat.eq_zero_of_not_pos hlen)
      by_cases hpred : rs w = WS_CLOSED ∨ rs w = WS_CLOSING
      · rw [if_pos hpred]
        by_cases hk : w ∈ alkeys s.clients
        · have hin : w ∈ (alkeys s.clients).filter
              (fun x => rs x = WS_CLOSED || rs x = WS_CLOSING) :=
            List.mem_filter.mpr ⟨hk, by rcases hpred with h | h <;> simp [h]⟩
          rw [hnil] at hin
          exact absurd hin (List.not_mem_nil w)
        · exact alget_none_of_not_mem_keys hk
      · rw [if_neg hpred]
  · intro hdnil
    unfold cleanupDeadConnections
    dsimp only
    rw [if_neg (by rw [hdnil]; simp)]
  · intro hdne
    unfold cleanupDeadConnections
    dsimp only
    split
    · rfl
    · rename_i hlen
      exact absurd (List.length_eq_zero.mp (Nat.eq_zero_of_not_pos hlen)) hdne
  · intro w ci b hpred hci hsub hbne
    have hkeys : w ∈ alkeys s.clients :=
      List.mem_map_of_mem Prod.fst (alget_mem hci)
    have hwdead : w ∈ (alkeys s.clients).filter
        (fun x => rs x = WS_CLOSED || rs x = WS_CLOSING) :=
      List.mem_filter.mpr ⟨hkeys, by rcases hpred with h | h <;> simp [h]⟩
    have hlen : ((alkeys s.clients).filter
        fun x => rs x = WS_CLOSED || rs x = WS_CLOSING).length > 0 :=
      List.length_pos.mpr (List.ne_nil_of_mem hwdead)
    unfold cleanupDeadConnections
    dsimp only
    rw [if_pos hlen]
    obtain ⟨l₁, l₂, hsplit⟩ := List.append_of_mem hwdead
    dsimp only
    rw [hsplit, List.foldl_append, List.foldl_cons]
    intro hx
    have hx2 : w ∈ subsOf (cleanupStep (l₁.foldl cleanupStep s) w) b :=
      cleanup_foldl_subs_subset l₂ _ hx
    have hndd : ((alkeys s.clients).filter
        fun x => rs x = WS_CLOSED || rs x = WS_CLOSING).Nodup := hnd.filter _
    rw [hsplit] at hndd
    have hwl1 : w ∉ l₁ := by
      rcases List.nodup_append.mp hndd with ⟨_, _, hdisj⟩
      exact fun hw => hdisj hw (List.mem_cons_self w l₂)
    have hci1 : alget (l₁.foldl cleanupStep s).clients w = some ci := by
      rw [cleanup_foldl_clients, alget_foldl_aldel, if_neg hwl1]
      exact hci
    exact cleanupStep_removes_self _ w b ci hci1 hsub hbne hx2

/-- The state with a dead subscribed passenger used by the C7 witness. -/
def ciDeadSub : ClientInfo :=
  { id := "z", type := ClientType.passenger, busId := none, userId := "p7",
    lastLocation := none, connected := true, subscribedToBusId := some "bus_001" }

/-- A state containing one dead subscribed connection and one live one. -/
def sSweep : ServerState :=
  { clients := [(5, ciDeadSub), (6, freshClientInfo "live")],
    busLocations := [("bus_001", locSample)],
    busSubscriptions := [("bus_001", [5])] }

/-- Witness for the amended C7 at a concrete state with one dead subscribed
connection. -/
theorem sweep_cleanup_behavior_witness :
    (cleanupDeadConnections sSweep rsDead5).1.busLocations = sSweep.busLocations
    ∧ (∀ w, alget (cleanupDeadConnections sSweep rsDead5).1.clients w
        = if rsDead5 w = WS_CLOSED ∨ rsDead5 w = WS_CLOSING then none
          else alget sSweep.clients w)
    ∧ (((alkeys sSweep.clients).filter
          fun x => rsDead5 x = WS_CLOSED || rsDead5 x = WS_CLOSING) = [] →
        cleanupDeadConnections sSweep rsDead5 = (sSweep, []))
    ∧ (((alkeys sSweep.clients).filter
          fun x => rsDead5 x = WS_CLOSED || rsDead5 x = WS_CLOSING) ≠ [] →
        (cleanupDeadConnections sSweep rsDead5).2
          = broadcastClientList (cleanupDeadConnections sSweep rsDead5).1 rsDead5)
    ∧ (∀ w ci b, (rsDead5 w = WS_CLOSED ∨ rsDead5 w = WS_CLOSING) →
        alget sSweep.clients w = some ci → ci.subscribedToBusId = some b → b ≠ "" →
        w ∉ subsOf (cleanupDeadConnections sSweep rsDead5).1 b) :=
  sweep_cleanup_behavior sSweep rsDead5 (by decide)

/-! ### Claim C1 -/

/-- C1 (second variant, which implements the uniqueness check): non-empty
userIds stay pairwise distinct across live connections under every handled
message, and a `register` carrying a userId already held by another live
connection leaves the whole state — the registering connection's
role/busId/userId and the first holder's registration included — untouched
and answers the sender with the duplicate-userId error. -/
theorem register_duplicate_userId_rejected :
    (∀ s, uniqueUserIds s → ∀ ws msg rs,
      uniqueUserIds (handleClientMessageP0 ws msg s rs).1)
    ∧ ∀ s ws msg rs u ci, msg.type = "register" → msg.userId = some u → u ≠ "" →
        alget s.clients ws = some ci →
        (∃ p ∈ s.clients, p.1 ≠ ws ∧ p.2.userId = u) →
        handleClientMessageP0 ws msg s rs
          = (s, [(ws, ServerMessage.errorMsg
              "A connection for this userId already exists. Only the first connection is kept.")]) := by
  constructor
  · intro s hs ws msg rs
    exact uniqueUserIds_hcmP0 s ws msg rs hs
  · intro s ws msg rs u ci hty hu hune hci hdup
    rw [hcmP0_registerCase hci hty]
    unfold registerCaseP0
    rw [if_neg (by rw [hu, strTruthy_some hune]; simp)]
    have hany : (s.clients.any fun p => p.1 ≠ ws && p.2.userId = msg.userId.getD "")
        = true := by
      rw [List.any_eq_true]
      obtain ⟨p, hp, hpne, hpu⟩ := hdup
      exact ⟨p, hp, by simp [hu, hpne, hpu]⟩
    rw [if_pos hany]

/-- The second fresh connection trying to register the taken userId `d1`. -/
def sTwoConns : ServerState :=
  { clients := [(0, ciDriver), (1, freshClientInfo "b")],
    busLocations := [], busSubscriptions := [] }

/-- A register message claiming the already-held userId `d1`. -/
def regDup : ClientMessage :=
  { type := "register", data := none, busId := some "bus_009", userId := some "d1",
    clientType := some ClientType.bus_driver, subscribeToBusId := none }

/-- Witness for C1: uniqueness holds after the event, and the duplicate
registration left the state untouched and got the error. -/
theorem register_duplicate_userId_rejected_witness :
    uniqueUserIds (handleClientMessageP0 1 regDup sTwoConns rsAllOpen).1
    ∧ handleClientMessageP0 1 regDup sTwoConns rsAllOpen
        = (sTwoConns, [(1, ServerMessage.errorMsg
            "A connection for this userId already exists. Only the first connection is kept.")]) :=
  ⟨register_duplicate_userId_rejected.1 sTwoConns
      (show uniqueUserIds sTwoConns by decide) 1 regDup rsAllOpen,
   register_duplicate_userId_rejected.2 sTwoConns 1 regDup rsAllOpen "d1"
      (freshClientInfo "b") rfl rfl (by decide) rfl (by decide)⟩

/-! ### Claim C8 -/

/-- Counterexample to C8 as stated: starting from a fresh connection, a
`register` as driver of `bus_001` followed by a re-`register` as passenger
(without busId) reaches a state whose connection has role `passenger` but a
set `busId` — violating "role ≠ driver ⇒ busId is unset". -/
theorem role_busId_invariant_cx :
    ¬ roleBusIdInvariant
      (handleClientMessage 0
        { type := "register", data := none, busId := none, userId := some "u1",
          clientType := some ClientType.passenger, subscribeToBusId := none }
        (handleClientMessage 0
          { type := "register", data := none, busId := some "bus_001",
            userId := some "u1", clientType := some ClientType.bus_driver,
            subscribeToBusId := none }
          (onOpen 0 "c0" { clients := [], busLocations := [], busSubscriptions := [] }).1
          rsAllOpen).1 rsAllOpen).1 := by
  decide

/-- C8 (amended: only the `role = driver ⇒ busId set` half holds; the
converse fails after a driver re-registers under a non-driver role, which
leaves the stale busId in place — see the counterexample): the driver-half is
preserved by every event of both handler variants, by connection open and
close, and by the sweep, so it holds at every reachable state. -/
theorem driver_busId_half_invariant_preserved
    (s : ServerState) (h : driverHasBusId s)
    (ws : Nat) (msg : ClientMessage) (rs : Nat → Nat) (cid : String) :
    driverHasBusId (handleClientMessage ws msg s rs).1
    ∧ driverHasBusId (handleClientMessageP0 ws msg s rs).1
    ∧ driverHasBusId (onOpen ws cid s).1
    ∧ driverHasBusId (onClose ws s rs).1
    ∧ driverHasBusId (cleanupDeadConnections s rs).1 := by
  refine ⟨driverHasBusId_hcm s ws msg rs h, driverHasBusId_hcmP0 s ws msg rs h,
    ?_, driverHasBusId_onClose s ws rs h, driverHasBusId_cleanup s rs h⟩
  intro p hp hdrv
  rcases mem_alset hp with rfl | ⟨hm, _⟩
  · exact absurd hdrv (by simp [freshClientInfo])
  · exact h p hm hdrv

/-- Witness for the amended C8 at a concrete driver state and register
message. -/
theorem driver_busId_half_invariant_preserved_witness :
    driverHasBusId (handleClientMessage 0 regNoCT sOneDriver rsAllOpen).1
    ∧ driverHasBusId (handleClientMessageP0 0 regNoCT sOneDriver rsAllOpen).1
    ∧ driverHasBusId (onOpen 0 "c9" sOneDriver).1
    ∧ driverHasBusId (onClose 0 sOneDriver rsAllOpen).1
    ∧ driverHasBusId (cleanupDeadConnections sOneDriver rsAllOpen).1 :=
  driver_busId_half_invariant_preserved sOneDriver
    (show driverHasBusId sOneDriver by decide) 0 regNoCT rsAllOpen "c9"

/-! ### Claim C5 -/

/-- C5: when the disconnecting connection is a driver of bus `b` and no other
live connection is a driver of `b`, the close handler deletes `b`'s cache
entry; when another driver of `b` remains, the cache is untouched.  The
second conjunct also certifies that the zero-driver check runs on the
post-removal registry: the disconnecting driver itself never keeps the entry
alive. -/
theorem driver_disconnect_cache_eviction
    (s : ServerState) (ws : Nat) (rs : Nat → Nat) (ci : ClientInfo) (b : String)
    (hci : alget s.clients ws = some ci)
    (hdrv : ci.type = ClientType.bus_driver)
    (hbus : ci.busId = some b) (hbne : b ≠ "") :
    ((∀ p ∈ s.clients, p.1 ≠ ws →
        ¬(p.2.type = ClientType.bus_driver ∧ p.2.busId = some b)) →
      alget (onClose ws s rs).1.busLocations b = none)
    ∧ ((∃ p ∈ s.clients, p.1 ≠ ws ∧ p.2.type = ClientType.bus_driver
          ∧ p.2.busId = some b) →
        (onClose ws s rs).1.busLocations = s.busLocations) := by
  have hwd : (ci.type = ClientType.bus_driver && strTruthy (some b)) = true := by
    rw [hdrv]
    simp [strTruthy_some hbne]
  unfold onClose
  simp only [hci, hbus, Option.getD_some, apply_ite ServerState.clients,
    apply_ite ServerState.busLocations, subRemoveOld_clients,
    subRemoveOld_busLocations, ite_self]
  rw [if_pos hwd]
  constructor
  · intro honly
    have hod : ((alvalues (aldel s.clients ws)).filter fun c =>
        c.type = ClientType.bus_driver && c.busId = some b).length = 0 := by
      rw [List.length_eq_zero, List.filter_eq_nil_iff]
      intro c hc
      obtain ⟨p, hp, hpc⟩ := List.mem_map.mp hc
      obtain ⟨hpmem, hpne⟩ := mem_aldel hp
      rw [← hpc]
      simp only [Bool.and_eq_true, decide_eq_true_eq]
      exact fun hcon => honly p hpmem hpne hcon
    rw [if_pos hod, notifySubsAndEvict_fst]
    exact alget_aldel_self _ _
  · intro hother
    obtain ⟨p, hpmem, hpne, hpdrv, hpbus⟩ := hother
    have hmem : p.2 ∈ (alvalues (aldel s.clients ws)).filter fun c =>
        c.type = ClientType.bus_driver && c.busId = some b := by
      refine List.mem_filter.mpr ⟨?_, ?_⟩
      · exact List.mem_map.mpr ⟨p, mem_aldel_of_ne hpmem hpne, rfl⟩
      · simp only [Bool.and_eq_true, decide_eq_true_eq]
        exact ⟨hpdrv, hpbus⟩
    have hodne : ¬(((alvalues (aldel s.clients ws)).filter fun c =>
        c.type = ClientType.bus_driver && c.busId = some b).length = 0) := by
      intro h0
      rw [List.length_eq_zero] at h0
      rw [h0] at hmem
      exact absurd hmem (List.not_mem_nil _)
    rw [if_neg hodne]

/-- The one-driver-with-cache state for the C5 witness. -/
def sOneDriverCached : ServerState :=
  { clients := [(0, ciDriver)], busLocations := [("bus_001", locSample)],
    busSubscriptions := [] }

/-- A second driver record for bus `bus_001`. -/
def ciDriver2 : ClientInfo :=
  { id := "e", type := ClientType.bus_driver, busId := some "bus_001", userId := "d2",
    lastLocation := none, connected := true, subscribedToBusId := none }

/-- The two-driver state for the C5 witness. -/
def sTwoDrivers : ServerState :=
  { clients := [(0, ciDriver), (1, ciDriver2)],
    busLocations := [("bus_001", locSample)], busSubscriptions := [] }

/-- Witness for C5: with one driver the cache entry is gone after its
disconnect; with two drivers the cache survives one disconnect. -/
theorem driver_disconnect_cache_eviction_witness :
    alget (onClose 0 sOneDriverCached rsAllOpen).1.busLocations "bus_001" = none
    ∧ (onClose 0 sTwoDrivers rsAllOpen).1.busLocations = sTwoDrivers.busLocations :=
  ⟨(driver_disconnect_cache_eviction sOneDriverCached 0 rsAllOpen ciDriver "bus_001"
      rfl rfl rfl (by decide)).1 (by decide),
   (driver_disconnect_cache_eviction sTwoDrivers 0 rsAllOpen ciDriver "bus_001"
      rfl rfl rfl (by decide)).2 (by decide)⟩

/-! ### Claim C10 -/

/-- C10: a `register` message with a non-empty `userId` but no `clientType`
field performs no registration: control falls through the missing `break`
into the `location_update` case, so the event is handled exactly as the same
message retyped `location_update` would be; every connection's role, userId
and busId are left unchanged, and no `client_list` broadcast is emitted. -/
theorem register_without_clientType_falls_through
    (s : ServerState) (ws : Nat) (msg : ClientMessage) (rs : Nat → Nat)
    (hty : msg.type = "register") (hct : msg.clientType = none)
    (hu : strTruthy msg.userId = true) :
    handleClientMessage ws msg s rs
      = handleClientMessage ws { msg with type := "location_update" } s rs
    ∧ (∀ w ci0, alget s.clients w = some ci0 →
        ∃ ci1, alget (handleClientMessage ws msg s rs).1.clients w = some ci1
          ∧ ci1.type = ci0.type ∧ ci1.userId = ci0.userId ∧ ci1.busId = ci0.busId)
    ∧ ∀ o ∈ (handleClientMessage ws msg s rs).2, ¬ isClientListMsg o.2 := by
  cases hci : alget s.clients ws with
  | none =>
      have h1 : handleClientMessage ws msg s rs = (s, []) := by
        simp [handleClientMessage, hci]
      have h2 : handleClientMessage ws { msg with type := "location_update" } s rs
          = (s, []) := by
        simp [handleClientMessage, hci]
      refine ⟨h1.trans h2.symm, ?_, ?_⟩
      · intro w ci0 h
        rw [h1]
        exact ⟨ci0, h, rfl, rfl, rfl⟩
      · intro o ho
        rw [h1] at ho
        simp at ho
  | some ci =>
      have h1 : handleClientMessage ws msg s rs = locationCase ws msg ci s rs := by
        rw [hcm_registerCase hci hty]
        unfold registerCase
        rw [if_neg (by simp [hu])]
        unfold registerCore
        rw [hct]
      have h2 : handleClientMessage ws { msg with type := "location_update" } s rs
          = locationCase ws { msg with type := "location_update" } ci s rs :=
        hcm_locationCase hci rfl
      have h3 : locationCase ws { msg with type := "location_update" } ci s rs
          = locationCase ws msg ci s rs := rfl
      refine ⟨h1.trans (h2.trans h3).symm, ?_, ?_⟩
      · intro w ci0 h
        rw [h1]
        rcases locationCase_clients_shape ws msg ci s rs with hcl | ⟨bl, hcl⟩
        · rw [hcl]
          exact ⟨ci0, h, rfl, rfl, rfl⟩
        · rw [hcl]
          by_cases hw : w = ws
          · subst hw
            rw [hci] at h
            injection h with h
            subst h
            exact ⟨_, alget_alset_self _ _ _, rfl, rfl, rfl⟩
          · rw [alget_alset_ne _ _ hw]
            exact ⟨ci0, h, rfl, rfl, rfl⟩
      · intro o ho
        rw [h1] at ho
        exact locationCase_out_not_clientList ws msg ci s rs o ho

/-- Witness for C10 at a concrete registered driver and message. -/
theorem register_without_clientType_falls_through_witness :
    handleClientMessage 0 regNoCT sOneDriver rsAllOpen
      = handleClientMessage 0 { regNoCT with type := "location_update" } sOneDriver rsAllOpen
    ∧ (∀ w ci0, alget sOneDriver.clients w = some ci0 →
        ∃ ci1, alget (handleClientMessage 0 regNoCT sOneDriver rsAllOpen).1.clients w = some ci1
          ∧ ci1.type = ci0.type ∧ ci1.userId = ci0.userId ∧ ci1.busId = ci0.busId)
    ∧ ∀ o ∈ (handleClientMessage 0 regNoCT sOneDriver rsAllOpen).2, ¬ isClientListMsg o.2 :=
  register_without_clientType_falls_through sOneDriver 0 regNoCT rsAllOpen rfl rfl rfl

end GpsWs
